import Mathlib

/-!
Verification development for the Recycle Cam waste-sorting demo
(src/app.js and src/mappings.js).

The per-frame detection logic is embedded shallowly:
* JS strings are modelled through their character lists with ASCII case
  mapping (the lexicon and all labels handled by the app are ASCII).
* JS numbers are modelled exactly: probabilities and confidences as `ℚ`,
  the geometric region scorer (which uses a square root) over `ℝ`.
* The per-frame loop body is a pure state-transition function
  `loopStep : FrameState → List Prediction → FrameState`.
-/

/-! ### ASCII case mapping (model of `String.prototype.toLowerCase` / `toUpperCase`) -/

/-- The ASCII letter case table: (lower, upper) pairs. -/
def caseTable : List (Char × Char) :=
  [('a', 'A'), ('b', 'B'), ('c', 'C'), ('d', 'D'), ('e', 'E'), ('f', 'F'),
   ('g', 'G'), ('h', 'H'), ('i', 'I'), ('j', 'J'), ('k', 'K'), ('l', 'L'),
   ('m', 'M'), ('n', 'N'), ('o', 'O'), ('p', 'P'), ('q', 'Q'), ('r', 'R'),
   ('s', 'S'), ('t', 'T'), ('u', 'U'), ('v', 'V'), ('w', 'W'), ('x', 'X'),
   ('y', 'Y'), ('z', 'Z')]

def jsLowerChar (c : Char) : Char :=
  ((caseTable.find? fun p => p.2 == c).map fun p => p.1).getD c

def jsUpperChar (c : Char) : Char :=
  ((caseTable.find? fun p => p.1 == c).map fun p => p.2).getD c

def jsLower (l : List Char) : List Char := l.map jsLowerChar

def jsUpperStr (s : String) : String := String.mk (s.data.map jsUpperChar)

/-! ### Substring test (model of `String.prototype.includes`) -/

def startsWithL : List Char → List Char → Bool
  | _, [] => true
  | [], _ :: _ => false
  | c :: cs, d :: ds => c == d && startsWithL cs ds

def containsSub : List Char → List Char → Bool
  | [], pat => pat.isEmpty
  | c :: t, pat => startsWithL (c :: t) pat || containsSub t pat

/-! ### The lexicon (src/mappings.js, `materialMappings`) -/

def apostrophe : String := String.mk [Char.ofNat 39]

def compostItems : List String :=
  ["onion", "red onion", "yellow onion", "white onion", "shallot", "garlic",
   "leek", "Granny Smith", "head cabbage", "bell pepper", "acorn squash",
   "butternut squash", "cucumber", "zucchini", "eggplant", "artichoke",
   "mushroom", "turnip", "kohlrabi"]

def paperItems : List String := []

def metalItems : List String := []

def glassItems : List String := []

def plasticItems : List String :=
  ["water bottle", "plastic bottle", "bottle", "pop bottle", "water jug",
   "flask", "pitcher", "carafe", "jug", "canteen", "thermos",
   "punching bag", "punch bag", "punching ball", "vacuum", "vase", "shaker",
   "cocktail shaker", "beer bottle", "wine bottle", "pill bottle",
   "water tower", "cylinder", "container", "tumbler", "mug", "cup",
   "barrel", "cask", "drum"]

def landfillItems : List String :=
  ["ballpoint", "ballpoint pen", "ball pen", "pen", "fountain pen", "quill",
   "quill pen", "pencil", "mechanical pencil", "marker", "felt-tip",
   "highlighter", "writing implement", "stylus", "rule", "rubber eraser",
   "plunger", "plumber" ++ apostrophe ++ "s helper", "screwdriver", "hammer",
   "nail", "lipstick", "torch", "flashlight", "lighter", "candle", "missile",
   "projectile", "stick", "baton", "drumstick", "match", "matchstick",
   "stethoscope", "syringe", "thermometer",
   "sunglass", "sunglasses", "eyeglass", "eyeglasses", "glasses",
   "spectacles", "reading glasses", "eye glasses", "goggles", "loupe",
   "magnifying glass", "lens", "optical", "frame", "rimless", "bifocal",
   "monocle"]

def materialMappings : List (String × List String) :=
  [("compost", compostItems), ("paper", paperItems), ("metal", metalItems),
   ("glass", glassItems), ("plastic", plasticItems),
   ("landfill", landfillItems)]

/-! ### CategoryMatcher (src/app.js, `mapToRecycleBucket`) -/

structure MatchResult where
  bucket : String
  displayName : String
deriving DecidableEq, Repr

/-- The eyewear keyword list used inside the landfill branch of the
`switch` in `mapToRecycleBucket` to pick "Glasses" over "Pen". -/
def eyewearKeywords : List String :=
  ["sunglass", "sunglasses", "eyeglass", "eyeglasses", "glasses",
   "spectacles", "reading glasses", "goggles", "loupe", "lens", "optical",
   "frame", "monocle", "bifocal"]

/-- One pattern test: `t === item.toLowerCase() || t.includes(item.toLowerCase())`. -/
def patternHits (t : List Char) (item : String) : Bool :=
  t == jsLower item.data || containsSub t (jsLower item.data)

/-- The `switch (category)` block of `mapToRecycleBucket`, mapping the
matched lexicon category (plus the lowercased label, for the landfill
eyewear disambiguation) to the returned bucket and display name. -/
def bucketAndName (category : String) (t : List Char) : MatchResult :=
  if category = "compost" then ⟨"Compost", "Onion"⟩
  else if category = "paper" then ⟨"Paper / Cardboard", "Paper"⟩
  else if category = "metal" then ⟨"Metal", "Metal Item"⟩
  else if category = "glass" then ⟨"Glass", "Glass Item"⟩
  else if category = "plastic" then ⟨"Plastic", "Water Bottle"⟩
  else if category = "landfill" then
    ⟨"Landfill",
      if eyewearKeywords.any (fun g => containsSub t g.data) then "Glasses"
      else "Pen"⟩
  else ⟨"Unknown", "Item"⟩

/-- The nested `for` loops of `mapToRecycleBucket`: scan the categories in
declaration order; the first category with a matching pattern wins and the
function returns immediately. -/
def scanCats (t : List Char) : List (String × List String) → Option MatchResult
  | [] => none
  | (category, items) :: rest =>
    if items.any (fun item => patternHits t item) then
      some (bucketAndName category t)
    else scanCats t rest

/-- Model of `mapToRecycleBucket(label)`: `const t = (label || "").toLowerCase()`,
then the scan over `materialMappings`; `none` models JS `null`. -/
def mapToRecycleBucket (label : Option String) : Option MatchResult :=
  scanCats (jsLower (label.getD "").data) materialMappings

example : mapToRecycleBucket (some "onion") = some ⟨"Compost", "Onion"⟩ := by decide
example : mapToRecycleBucket (some "PEN") = some ⟨"Landfill", "Pen"⟩ := by decide
example : mapToRecycleBucket (some "sunglasses") = some ⟨"Landfill", "Glasses"⟩ := by decide
example : mapToRecycleBucket (some "car") = none := by decide
example : mapToRecycleBucket (some "water bottle") = some ⟨"Plastic", "Water Bottle"⟩ := by decide

/-! ### TemporalStabilizer state (src/app.js, `detectionHistory` / `getMostFrequent`) -/

def HISTORY_SIZE : Nat := 5

def MIN_FREQUENCY : Nat := 2

/-- Model of `detectionHistory.push(displayName)` followed by
`if (detectionHistory.length > HISTORY_SIZE) detectionHistory.shift()`. -/
def pushEvict (hist : List String) (n : String) : List String :=
  let pushed := hist ++ [n]
  if HISTORY_SIZE < pushed.length then pushed.tail else pushed

/-- One step of building the JS frequency object: object keys appear in
first-insertion order, so the key list is the deduplicated history in
first-occurrence order. -/
def focStep (acc : List String) (x : String) : List String :=
  if x ∈ acc then acc else acc ++ [x]

def firstOccKeys (l : List String) : List String := List.foldl focStep [] l

/-- Model of `Object.entries(freq)` : each key paired with its occurrence count,
in first-occurrence order. -/
def freqEntries (l : List String) : List (String × Nat) :=
  (firstOccKeys l).map (fun k => (k, l.count k))

/-- One comparison step of taking the head of the entry list stably sorted
by descending count: a later entry replaces the current best only when its
count is strictly greater. -/
def pickStep (best : Option (String × Nat)) (kv : String × Nat) :
    Option (String × Nat) :=
  match best with
  | none => some kv
  | some bc => if bc.2 < kv.2 then some kv else some bc

def pickTop (l : List (String × Nat)) : Option (String × Nat) :=
  List.foldl pickStep none l

/-- Model of `getMostFrequent(arr)`: `[null, 0]` on an empty array, otherwise the
head of the frequency entries stably sorted by descending count. -/
def getMostFrequent (l : List String) : Option String × Nat :=
  match pickTop (freqEntries l) with
  | none => (none, 0)
  | some (k, c) => (some k, c)

/-- The confirmation gate of the loop:
`freq >= MIN_FREQUENCY && stableName` — note that JS truthiness makes the
empty string act like `null` here. -/
def stabConfirmed (hist : List String) : Bool :=
  match getMostFrequent hist with
  | (some n, f) => decide (MIN_FREQUENCY ≤ f) && decide (n ≠ "")
  | (none, _) => false

example : getMostFrequent ["a", "b", "a"] = (some "a", 2) := by decide
example : getMostFrequent [] = (none, 0) := by decide
example : stabConfirmed ["Onion", "Pen", "Onion"] = true := by decide
example : stabConfirmed ["a", "b", "c", "d", "e"] = false := by decide
example : List.foldl pushEvict [] ["a", "b", "c", "d", "e", "f", "g"] =
    ["c", "d", "e", "f", "g"] := by decide

/-! ### ConfidencePresenter (src/app.js, `updateConfidence`) -/

inductive ConfTier where
  | low
  | medium
  | high
deriving DecidableEq, Repr

/-- Rational multiplication, written through `mkRat` so that it reduces
inside the kernel; proved equal to `·*·` below. -/
def qMul (a b : ℚ) : ℚ := mkRat (a.num * b.num) (a.den * b.den)

/-- Rational addition, written through `mkRat` so that it reduces inside
the kernel; proved equal to `·+·` below. -/
def qAdd (a b : ℚ) : ℚ := mkRat (a.num * b.den + b.num * a.den) (a.den * b.den)

/-- Executable model of `Math.min` on rationals. -/
def jsMinQ (a b : ℚ) : ℚ := if a ≤ b then a else b

/-- Executable model of `Math.min` on integers. -/
def jsMinZ (a b : ℤ) : ℤ := if a ≤ b then a else b

/-- Executable model of `Math.round` (round half towards positive
infinity, as JS does); proved equal to the Mathlib `round` below. -/
def jsRound (q : ℚ) : ℤ := Rat.floor (qAdd q (mkRat 1 2))

/-- The percent computed by `updateConfidence(score)`:
boostedScore = `Math.min(score * 3, 1.0)`,
percent = `Math.min(Math.round(boostedScore * 100), 100)`. -/
def updateConfidencePercent (score : ℚ) : ℤ :=
  jsMinZ (jsRound (qMul (jsMinQ (qMul score 3) 1) 100)) 100

/-- Model of `updateConfidence(score)`: the displayed percent together with the
tier thresholds used for the meter color classes. -/
def updateConfidence (score : ℚ) : ℤ × ConfTier :=
  (updateConfidencePercent score,
    if updateConfidencePercent score < 40 then ConfTier.low
    else if updateConfidencePercent score < 70 then ConfTier.medium
    else ConfTier.high)

example : updateConfidence (mkRat 1 10) = (30, ConfTier.low) := by decide
example : updateConfidence (mkRat 1 5) = (60, ConfTier.medium) := by decide
example : updateConfidence (mkRat 3 10) = (90, ConfTier.high) := by decide
example : updateConfidence 0 = (0, ConfTier.low) := by decide
example : updateConfidence (mkRat 1 2) = (100, ConfTier.high) := by decide

/-! ### RegionScorer (src/app.js, `validateAndScoreDetection`)

The center-distance computation uses `Math.sqrt`, so this component is
modelled over `ℝ`; `fw`, `fh` are `canvas.width`, `canvas.height`. -/

noncomputable def validateAndScoreDetection (fw fh x y w h score : ℝ) :
    Option ℝ :=
  let frameArea := fw * fh
  let bboxArea := w * h
  let sizeFrac := bboxArea / frameArea
  if sizeFrac < 0.02 ∨ sizeFrac > 0.85 then none
  else
    let cx := x + w / 2
    let cy := y + h / 2
    let dx := (cx - fw / 2) / (fw / 2)
    let dy := (cy - fh / 2) / (fh / 2)
    let centerDist := Real.sqrt (dx * dx + dy * dy) / Real.sqrt 2
    let centerBoost := (1 - centerDist) * 0.2
    let sizeBoost : ℝ := if 0.1 ≤ sizeFrac ∧ sizeFrac ≤ 0.5 then 0.1 else 0
    some (min (score * (1 + centerBoost + sizeBoost)) 1)

/-! ### The per-frame loop body (src/app.js, `loop`, lines 539-598) -/

structure Prediction where
  className : String
  probability : ℚ
deriving DecidableEq, Repr

inductive TipKey where
  | noObject
  | tooSmall
  | lowConfidence
  | success
deriving DecidableEq, Repr

/-- What the tips banner shows: either a keyed tip set through
`updateTip(tipKey, objectName)`, or the raw diagnostic text
`Seeing: <label>` written directly in the no-match branch. -/
inductive TipDisp where
  | keyed (k : TipKey) (objName : Option String)
  | seeing (label : String)
deriving DecidableEq, Repr

def tipKeyOf : TipDisp → Option TipKey
  | TipDisp.keyed k _ => some k
  | TipDisp.seeing _ => none

structure FrameState where
  detectionHistory : List String
  noDetectionFrames : Nat
  targetDetected : Bool
  hud : Option (String × String)
  tip : TipDisp
  confidencePercent : ℤ
deriving DecidableEq, Repr

/-- State right after the start button handler: empty history, zeroed
counter, `updateCategoryUI(null, null)` and `updateTip("noObject")`. -/
def initState : FrameState :=
  ⟨[], 0, false, none, TipDisp.keyed TipKey.noObject none, 0⟩

/-- The acceptance test of the scan:
`result !== null && pred.probability > 0.05`. -/
def accept (p : Prediction) : Bool :=
  (mapToRecycleBucket (some p.className)).isSome
    && decide (mkRat 1 20 < p.probability)

/-- The `for (const pred of predictions.slice(0, 3))` scan: the first
prediction whose label matches the lexicon and whose probability clears
the 0.05 floor is processed and the scan `break`s. -/
def findAccepted : List Prediction → Option (Prediction × MatchResult)
  | [] => none
  | p :: rest =>
    match mapToRecycleBucket (some p.className) with
    | some r =>
      if mkRat 1 20 < p.probability then some (p, r) else findAccepted rest
    | none => findAccepted rest

/-- The matched branch of the loop body: reset `noDetectionFrames`, append
the display name to the history, show the confidence of the raw
probability, pick the tip from the raw probability, and update the HUD
only when the history mode confirms the detection. -/
def applyMatch (st : FrameState) (p : Prediction) (r : MatchResult) :
    FrameState :=
  let hist := pushEvict st.detectionHistory r.displayName
  let gm := getMostFrequent hist
  let isConf := stabConfirmed hist
  { detectionHistory := hist
    noDetectionFrames := 0
    targetDetected := if isConf then true else st.targetDetected
    hud := if isConf then some (r.bucket, gm.1.getD "") else st.hud
    tip :=
      if p.probability < mkRat 3 20 then TipDisp.keyed TipKey.lowConfidence none
      else TipDisp.keyed TipKey.success (some r.displayName)
    confidencePercent := (updateConfidence p.probability).1 }

/-- One iteration of `loop` (the part guarded by
`predictions.length > 0`): scan the top three predictions; on a match run
`applyMatch`, otherwise count the no-detection frame, clear the HUD and
show the `Seeing: <label>` diagnostic for the top prediction. -/
def loopStep (st : FrameState) (preds : List Prediction) : FrameState :=
  match preds with
  | [] => st
  | top :: _ =>
    match findAccepted (preds.take 3) with
    | some (p, r) => applyMatch st p r
    | none =>
      { st with
        noDetectionFrames := st.noDetectionFrames + 1
        targetDetected := false
        hud := none
        tip := TipDisp.seeing top.className
        confidencePercent := (updateConfidence 0).1 }

example :
    loopStep initState [⟨"car", mkRat 9 10⟩] =
      ⟨[], 1, false, none, TipDisp.seeing "car", 0⟩ := by decide
example :
    (loopStep initState [⟨"water bottle", mkRat 1 5⟩]).confidencePercent = 60 := by
  decide
example :
    (loopStep initState [⟨"water bottle", mkRat 1 5⟩]).tip =
      TipDisp.keyed TipKey.success (some "Water Bottle") := by decide
example :
    (loopStep initState [⟨"car", mkRat 9 10⟩, ⟨"onion", mkRat 1 2⟩]).detectionHistory =
      ["Onion"] := by decide

/-! ### Lemmas about the matcher -/

theorem jsLowerChar_jsUpperChar (c : Char) :
    jsLowerChar (jsUpperChar c) = jsLowerChar c := by
  unfold jsUpperChar
  cases hf : caseTable.find? fun p => p.1 == c with
  | none => rfl
  | some p =>
    have hmem : p ∈ caseTable := List.mem_of_find?_eq_some hf
    have hp1 : p.1 = c := by
      have := List.find?_some hf
      exact eq_of_beq this
    have h1 : ∀ q ∈ caseTable,
        (caseTable.find? fun x => x.2 == q.2) = some q := by decide
    have h2 : ∀ q ∈ caseTable,
        (caseTable.find? fun x => x.2 == q.1) = none := by decide
    show jsLowerChar p.2 = jsLowerChar c
    unfold jsLowerChar
    rw [h1 p hmem, ← hp1, h2 p hmem]
    simp

theorem jsLower_map_upper (l : List Char) :
    jsLower (l.map jsUpperChar) = jsLower l := by
  simp [jsLower, List.map_map, Function.comp_def, jsLowerChar_jsUpperChar]

theorem scanCats_firstWins (t : List Char) (pre : List (String × List String))
    (cat : String) (items : List String) (suf : List (String × List String))
    (hpre : ∀ ci ∈ pre, ∀ it ∈ ci.2, patternHits t it = false)
    (hany : (items.any fun item => patternHits t item) = true) :
    scanCats t (pre ++ (cat, items) :: suf) = some (bucketAndName cat t) := by
  induction pre with
  | nil => simp [scanCats, hany]
  | cons ci rest ih =>
    obtain ⟨c1, c2⟩ := ci
    have hci : (c2.any fun item => patternHits t item) = false := by
      simp only [List.any_eq_false]
      intro it hit
      simp [hpre (c1, c2) (by simp) it hit]
    simp only [List.cons_append, scanCats, hci]
    simp only [Bool.false_eq_true, if_false]
    exact ih fun d hd => hpre d (by simp [hd])

theorem scanCats_source (t : List Char) (mm : List (String × List String))
    (r : MatchResult) (h : scanCats t mm = some r) :
    ∃ cat items, (cat, items) ∈ mm ∧
      (items.any fun item => patternHits t item) = true ∧
      r = bucketAndName cat t := by
  induction mm with
  | nil => simp [scanCats] at h
  | cons ci rest ih =>
    obtain ⟨c1, c2⟩ := ci
    by_cases hc : (c2.any fun item => patternHits t item) = true
    · refine ⟨c1, c2, by simp, hc, ?_⟩
      simp only [scanCats, hc, if_true] at h
      exact (Option.some.inj h).symm
    · simp only [scanCats, hc, if_false] at h
      obtain ⟨cat, items, hd, hdany, hdr⟩ := ih h
      exact ⟨cat, items, by simp [hd], hdany, hdr⟩

theorem bucketAndName_displayName_ne_empty (cat : String) (t : List Char) :
    (bucketAndName cat t).displayName ≠ "" := by
  unfold bucketAndName
  split_ifs <;> simp

theorem mapToRecycleBucket_displayName_ne_empty (lab : Option String)
    (r : MatchResult) (h : mapToRecycleBucket lab = some r) :
    r.displayName ≠ "" := by
  obtain ⟨cat, items, _, _, hr⟩ := scanCats_source _ _ _ h
  rw [hr]
  exact bucketAndName_displayName_ne_empty _ _

/-- C3: every label whose lowercase form equals or contains a pattern of
the first matching lexicon category `cat` (categories scanned in
declaration order compost, paper, metal, glass, plastic, landfill; first
matching pair wins) is mapped to that category, and matching is
case-insensitive: `match(L) = match(L.toUpperCase())` for every string. -/
theorem claim3_thm :
    (∀ (L : String) (pre : List (String × List String)) (cat : String)
       (items : List String) (suf : List (String × List String)),
       materialMappings = pre ++ (cat, items) :: suf →
       (∀ ci ∈ pre, ∀ it ∈ ci.2, patternHits (jsLower L.data) it = false) →
       (items.any fun item => patternHits (jsLower L.data) item) = true →
       mapToRecycleBucket (some L) = some (bucketAndName cat (jsLower L.data))) ∧
    (∀ L : String,
       mapToRecycleBucket (some L) = mapToRecycleBucket (some (jsUpperStr L))) := by
  constructor
  · intro L pre cat items suf hmm hpre hany
    unfold mapToRecycleBucket
    rw [hmm]
    exact scanCats_firstWins _ pre cat items suf hpre hany
  · intro L
    unfold mapToRecycleBucket
    have hdata : (jsUpperStr L).data = L.data.map jsUpperChar := rfl
    simp only [Option.getD_some, hdata, jsLower_map_upper]

/-- Witness for C3 at the concrete label "pen": the first four categories
with patterns do not match, landfill does, and matching "pen" is
case-insensitive. -/
theorem claim3_witness :
    mapToRecycleBucket (some "pen") = some ⟨"Landfill", "Pen"⟩ ∧
    mapToRecycleBucket (some "pen") = mapToRecycleBucket (some (jsUpperStr "pen")) := by
  constructor
  · have h := claim3_thm.1 "pen"
      [("compost", compostItems), ("paper", paperItems), ("metal", metalItems),
       ("glass", glassItems), ("plastic", plasticItems)]
      "landfill" landfillItems [] rfl (by decide) (by decide)
    rw [h]
    decide
  · exact claim3_thm.2 "pen"

/-- C9: the paper, metal and glass pattern lists are empty, so the matcher
only ever returns the Compost, Plastic or Landfill buckets; the Paper,
Metal Item and Glass Item display-name branches are unreachable. -/
theorem claim9_thm (label : Option String) (r : MatchResult)
    (h : mapToRecycleBucket label = some r) :
    (r.bucket = "Compost" ∨ r.bucket = "Plastic" ∨ r.bucket = "Landfill") ∧
    r.bucket ≠ "Paper / Cardboard" ∧ r.bucket ≠ "Metal" ∧ r.bucket ≠ "Glass" ∧
    r.displayName ≠ "Paper" ∧ r.displayName ≠ "Metal Item" ∧
    r.displayName ≠ "Glass Item" := by
  obtain ⟨cat, items, hmem, hany, hr⟩ := scanCats_source _ _ _ h
  simp only [materialMappings, List.mem_cons, List.not_mem_nil, or_false,
    Prod.mk.injEq] at hmem
  rcases hmem with ⟨rfl, rfl⟩ | ⟨rfl, rfl⟩ | ⟨rfl, rfl⟩ | ⟨rfl, rfl⟩ |
    ⟨rfl, rfl⟩ | ⟨rfl, rfl⟩
  · have e : bucketAndName "compost" (jsLower ((label.getD "").data)) =
        ⟨"Compost", "Onion"⟩ := rfl
    rw [hr, e]
    decide
  · simp [paperItems] at hany
  · simp [metalItems] at hany
  · simp [glassItems] at hany
  · have e : bucketAndName "plastic" (jsLower ((label.getD "").data)) =
        ⟨"Plastic", "Water Bottle"⟩ := rfl
    rw [hr, e]
    decide
  · have e : bucketAndName "landfill" (jsLower ((label.getD "").data)) =
        ⟨"Landfill",
          if eyewearKeywords.any
              (fun g => containsSub (jsLower ((label.getD "").data)) g.data)
            then "Glasses" else "Pen"⟩ := rfl
    rw [hr, e]
    by_cases he : (eyewearKeywords.any fun g =>
        containsSub (jsLower ((label.getD "").data)) g.data) = true
    · rw [if_pos he]
      decide
    · rw [if_neg he]
      decide

/-- Witness for C9 at the concrete label "onion". -/
theorem claim9_witness :
    ((⟨"Compost", "Onion"⟩ : MatchResult).bucket = "Compost" ∨
      (⟨"Compost", "Onion"⟩ : MatchResult).bucket = "Plastic" ∨
      (⟨"Compost", "Onion"⟩ : MatchResult).bucket = "Landfill") ∧
    (⟨"Compost", "Onion"⟩ : MatchResult).bucket ≠ "Paper / Cardboard" ∧
    (⟨"Compost", "Onion"⟩ : MatchResult).bucket ≠ "Metal" ∧
    (⟨"Compost", "Onion"⟩ : MatchResult).bucket ≠ "Glass" ∧
    (⟨"Compost", "Onion"⟩ : MatchResult).displayName ≠ "Paper" ∧
    (⟨"Compost", "Onion"⟩ : MatchResult).displayName ≠ "Metal Item" ∧
    (⟨"Compost", "Onion"⟩ : MatchResult).displayName ≠ "Glass Item" :=
  claim9_thm (some "onion") ⟨"Compost", "Onion"⟩ (by decide)

/-- C10: the matcher is total on absent input: JS `null`, `undefined` and
the empty string all coerce to `""`, nothing in the lexicon matches the
empty label (no pattern is the empty string), and the result is `null`. -/
theorem claim10_thm :
    mapToRecycleBucket none = none ∧
    mapToRecycleBucket (some "") = none ∧
    (materialMappings.all fun ci => ci.2.all fun it => !(it == "")) = true := by
  refine ⟨by decide, by decide, by decide⟩

/-! ### Lemmas about the detection history -/

theorem pushEvict_eq (h : List String) (n : String)
    (hl : h.length ≤ HISTORY_SIZE) :
    pushEvict h n = (h ++ [n]).drop ((h ++ [n]).length - HISTORY_SIZE) := by
  rw [show pushEvict h n =
      if HISTORY_SIZE < (h ++ [n]).length then (h ++ [n]).tail else h ++ [n]
    from rfl]
  simp only [HISTORY_SIZE, List.length_append, List.length_singleton] at *
  by_cases hc : 5 < h.length + 1
  · rw [if_pos hc, show h.length + 1 - 5 = 1 by omega, List.drop_one]
  · rw [if_neg hc, show h.length + 1 - 5 = 0 by omega, List.drop_zero]

theorem pushEvict_length (h : List String) (n : String)
    (hl : h.length ≤ HISTORY_SIZE) :
    (pushEvict h n).length ≤ HISTORY_SIZE := by
  rw [pushEvict_eq h n hl]
  simp only [HISTORY_SIZE, List.length_drop, List.length_append,
    List.length_singleton] at *
  omega

theorem histWindow (obs : List String) : ∀ h : List String,
    h.length ≤ HISTORY_SIZE →
    List.foldl pushEvict h obs =
      (h ++ obs).drop ((h ++ obs).length - HISTORY_SIZE) := by
  induction obs with
  | nil =>
    intro h hl
    simp only [List.foldl_nil, List.append_nil]
    rw [show h.length - HISTORY_SIZE = 0 by
      simp only [HISTORY_SIZE] at *; omega, List.drop_zero]
  | cons n obs ih =>
    intro h hl
    rw [List.foldl_cons, ih (pushEvict h n) (pushEvict_length h n hl),
      pushEvict_eq h n hl]
    have hd : (h ++ [n]).length - HISTORY_SIZE ≤ (h ++ [n]).length :=
      Nat.sub_le _ _
    rw [← List.drop_append_of_le_length hd, List.drop_drop]
    have hls : h ++ [n] ++ obs = h ++ n :: obs := by simp
    rw [hls]
    congr 1
    simp only [HISTORY_SIZE, List.length_drop, List.length_append,
      List.length_singleton, List.length_cons, List.length_nil] at *
    omega

/-- C4: the history is a FIFO queue of capacity `HISTORY_SIZE = 5`:
appending to a full history evicts exactly the oldest entry, the length
never exceeds 5 from any valid start, and after `HISTORY_SIZE + k` appends
from an empty history the content — hence the computed mode — is exactly
the last 5 appended entries. -/
theorem claim4_thm :
    (∀ (h : List String) (n : String), h.length = HISTORY_SIZE →
      pushEvict h n = h.tail ++ [n]) ∧
    (∀ (h : List String) (obs : List String), h.length ≤ HISTORY_SIZE →
      (List.foldl pushEvict h obs).length ≤ HISTORY_SIZE) ∧
    (∀ (obs : List String) (k : Nat), obs.length = HISTORY_SIZE + k →
      getMostFrequent (List.foldl pushEvict [] obs) =
        getMostFrequent (obs.drop k)) := by
  refine ⟨?_, ?_, ?_⟩
  · intro h n hl
    rw [pushEvict_eq h n (le_of_eq hl)]
    rw [show (h ++ [n]).length - HISTORY_SIZE = 1 by
      simp only [HISTORY_SIZE, List.length_append, List.length_singleton] at *
      omega]
    rw [List.drop_one, List.tail_append_of_ne_nil]
    intro hnil
    rw [hnil] at hl
    simp [HISTORY_SIZE] at hl
  · intro h obs hl
    induction obs generalizing h with
    | nil => simpa using hl
    | cons n obs ih =>
      rw [List.foldl_cons]
      exact ih (pushEvict h n) (pushEvict_length h n hl)
  · intro obs k hlen
    rw [histWindow obs [] (by simp [HISTORY_SIZE])]
    simp only [List.nil_append]
    rw [show obs.length - HISTORY_SIZE = k from by
      simp only [HISTORY_SIZE] at hlen ⊢
      omega]

/-- Witness for C4: a full history evicts its head; a 7-element
observation sequence keeps the history at 5 entries and its mode is the
mode of the last 5 observations. -/
theorem claim4_witness :
    pushEvict ["a", "b", "c", "d", "e"] "f" =
      (["a", "b", "c", "d", "e"] : List String).tail ++ ["f"] ∧
    (List.foldl pushEvict []
      ["a", "a", "b", "b", "c", "c", "c"]).length ≤ HISTORY_SIZE ∧
    getMostFrequent (List.foldl pushEvict [] ["a", "a", "b", "b", "c", "c", "c"]) =
      getMostFrequent (["a", "a", "b", "b", "c", "c", "c"].drop 2) :=
  ⟨claim4_thm.1 ["a", "b", "c", "d", "e"] "f" (by decide),
   claim4_thm.2.1 [] ["a", "a", "b", "b", "c", "c", "c"] (by decide),
   claim4_thm.2.2 ["a", "a", "b", "b", "c", "c", "c"] 2 (by decide)⟩

/-! ### Lemmas about `getMostFrequent` -/

theorem focStep_foldl_mem (l : List String) : ∀ (acc : List String) (x : String),
    x ∈ List.foldl focStep acc l ↔ x ∈ acc ∨ x ∈ l := by
  induction l with
  | nil => simp
  | cons y l ih =>
    intro acc x
    rw [List.foldl_cons]
    show x ∈ List.foldl focStep (focStep acc y) l ↔ _
    rw [ih]
    unfold focStep
    by_cases hy : y ∈ acc
    · rw [if_pos hy]
      simp only [List.mem_cons]
      constructor
      · rintro (h | h)
        · exact Or.inl h
        · exact Or.inr (Or.inr h)
      · rintro (h | rfl | h)
        · exact Or.inl h
        · exact Or.inl hy
        · exact Or.inr h
    · rw [if_neg hy]
      simp only [List.mem_append, List.mem_singleton, List.mem_cons]
      tauto

theorem firstOccKeys_mem (l : List String) (x : String) :
    x ∈ firstOccKeys l ↔ x ∈ l := by
  unfold firstOccKeys
  rw [focStep_foldl_mem]
  simp

theorem pickStep_foldl_some (l : List (String × Nat)) : ∀ (a : String × Nat),
    ∃ b, List.foldl pickStep (some a) l = some b ∧ (b = a ∨ b ∈ l) ∧
      a.2 ≤ b.2 ∧ ∀ kv ∈ l, kv.2 ≤ b.2 := by
  induction l with
  | nil => exact fun a => ⟨a, rfl, Or.inl rfl, le_refl _, by simp⟩
  | cons y l ih =>
    intro a
    rw [List.foldl_cons]
    by_cases hy : a.2 < y.2
    · rw [show pickStep (some a) y = some y from by simp [pickStep, hy]]
      obtain ⟨b, hb, hbin, hyb, hall⟩ := ih y
      refine ⟨b, hb, ?_, le_trans (le_of_lt hy) hyb, ?_⟩
      · rcases hbin with rfl | h
        · exact Or.inr (by simp)
        · exact Or.inr (List.mem_cons_of_mem _ h)
      · intro kv hkv
        rcases List.mem_cons.mp hkv with rfl | h
        · exact hyb
        · exact hall kv h
    · rw [show pickStep (some a) y = some a from by simp [pickStep, hy]]
      obtain ⟨b, hb, hbin, hab, hall⟩ := ih a
      refine ⟨b, hb, ?_, hab, ?_⟩
      · rcases hbin with rfl | h
        · exact Or.inl rfl
        · exact Or.inr (List.mem_cons_of_mem _ h)
      · intro kv hkv
        rcases List.mem_cons.mp hkv with rfl | h
        · exact le_trans (Nat.le_of_not_lt hy) hab
        · exact hall kv h

theorem getMostFrequent_spec (l : List String) (hl : l ≠ []) :
    ∃ k c, getMostFrequent l = (some k, c) ∧ k ∈ l ∧ c = l.count k ∧
      ∀ x ∈ l, l.count x ≤ c := by
  obtain ⟨e, es, hfe⟩ : ∃ e es, freqEntries l = e :: es := by
    cases hfk : firstOccKeys l with
    | nil =>
      cases l with
      | nil => exact absurd rfl hl
      | cons z zs =>
        have hz : z ∈ firstOccKeys (z :: zs) :=
          (firstOccKeys_mem _ _).mpr (by simp)
        rw [hfk] at hz
        simp at hz
    | cons k ks =>
      exact ⟨(k, l.count k), ks.map fun k => (k, l.count k),
        by simp [freqEntries, hfk]⟩
  have hpt : pickTop (freqEntries l) = List.foldl pickStep (some e) es := by
    rw [hfe]
    rfl
  obtain ⟨b, hb, hbin, heb, hall⟩ := pickStep_foldl_some es e
  obtain ⟨bk, bc⟩ := b
  have hbfe : (bk, bc) ∈ freqEntries l := by
    rw [hfe]
    rcases hbin with rfl | h
    · simp
    · exact List.mem_cons_of_mem _ h
  obtain ⟨k, hkmem, hkb⟩ := List.mem_map.mp hbfe
  have hbk : bk = k := by
    have := congrArg Prod.fst hkb
    simpa using this.symm
  have hbc : bc = l.count k := by
    have := congrArg Prod.snd hkb
    simpa using this.symm
  refine ⟨bk, bc, ?_, ?_, ?_, ?_⟩
  · unfold getMostFrequent
    rw [hpt, hb]
  · rw [hbk]
    exact (firstOccKeys_mem _ _).mp hkmem
  · rw [hbk, hbc]
  · intro x hx
    have hxk : x ∈ firstOccKeys l := (firstOccKeys_mem _ _).mpr hx
    have hxfe : (x, l.count x) ∈ freqEntries l := by
      unfold freqEntries
      exact List.mem_map.mpr ⟨x, hxk, rfl⟩
    rw [hfe] at hxfe
    rcases List.mem_cons.mp hxfe with hxe | hxes
    · have : (x, l.count x).2 ≤ e.2 := le_of_eq (by rw [hxe])
      exact le_trans this heb
    · exact hall _ hxes

/-- C2: over observation sequences whose entries are display names the
matcher can actually produce (the stabilizer history is only ever fed
matcher results), any name appended at least `MIN_FREQUENCY = 2` times
within the last `HISTORY_SIZE = 5` accepted observations confirms the
detection; five pairwise-distinct names, each appearing once, do not. -/
theorem claim2_thm :
    (∀ (names : List String) (s : String),
      (∀ n ∈ names, ∃ lab r, mapToRecycleBucket lab = some r ∧
        r.displayName = n) →
      MIN_FREQUENCY ≤ (names.drop (names.length - HISTORY_SIZE)).count s →
      stabConfirmed (List.foldl pushEvict [] names) = true) ∧
    (∀ a b c d e : String, ([a, b, c, d, e] : List String).Nodup →
      stabConfirmed (List.foldl pushEvict [] [a, b, c, d, e]) = false) := by
  constructor
  · intro names s hnames hcount
    rw [histWindow names [] (by simp [HISTORY_SIZE]), List.nil_append]
    have hpos : 0 < (names.drop (names.length - HISTORY_SIZE)).count s := by
      simp only [MIN_FREQUENCY] at hcount
      omega
    have hsl : s ∈ names.drop (names.length - HISTORY_SIZE) :=
      List.count_pos_iff.mp hpos
    have hne : names.drop (names.length - HISTORY_SIZE) ≠ [] := by
      intro h0
      rw [h0] at hsl
      simp at hsl
    obtain ⟨k, c, hgm, hkmem, hc, hmax⟩ := getMostFrequent_spec _ hne
    have hc2 : MIN_FREQUENCY ≤ c := le_trans hcount (hmax s hsl)
    have hksub : k ∈ names := List.drop_subset _ _ hkmem
    obtain ⟨lab, r, hmapr, hrd⟩ := hnames k hksub
    have hkne : k ≠ "" :=
      hrd ▸ mapToRecycleBucket_displayName_ne_empty lab r hmapr
    unfold stabConfirmed
    rw [hgm]
    simp [hc2, hkne]
  · intro a b c d e hnd
    rw [histWindow _ [] (by simp [HISTORY_SIZE]), List.nil_append,
      show ([a, b, c, d, e] : List String).length - HISTORY_SIZE = 0 from by
        simp [HISTORY_SIZE],
      List.drop_zero]
    obtain ⟨k, cc, hgm, hkmem, hc, hmax⟩ :=
      getMostFrequent_spec [a, b, c, d, e] (by simp)
    have hcc : cc ≤ 1 := hc ▸ List.nodup_iff_count_le_one.mp hnd k
    have hnot : ¬ (MIN_FREQUENCY ≤ cc) := by
      simp only [MIN_FREQUENCY]
      omega
    unfold stabConfirmed
    rw [hgm]
    simp [hnot]

/-- Witness for C2: two "Onion" observations confirm; five distinct
display names do not. -/
theorem claim2_witness :
    stabConfirmed (List.foldl pushEvict [] ["Onion", "Onion"]) = true ∧
    stabConfirmed (List.foldl pushEvict []
      ["Onion", "Water Bottle", "Pen", "Glasses", "Paper"]) = false := by
  constructor
  · refine claim2_thm.1 ["Onion", "Onion"] "Onion" ?_ (by decide)
    intro n hn
    have hn2 : n = "Onion" := by
      rcases List.mem_cons.mp hn with h | h
      · exact h
      · simpa using h
    exact ⟨some "onion", ⟨"Compost", "Onion"⟩, by decide, by rw [hn2]⟩
  · exact claim2_thm.2 "Onion" "Water Bottle" "Pen" "Glasses" "Paper"
      (by decide)

/-! ### Lemmas about `updateConfidence` -/

theorem qMul_eq (a b : ℚ) : qMul a b = a * b := by
  rw [qMul, Rat.mkRat_eq_div]
  push_cast
  rw [div_mul_eq_div_div_swap, mul_div_assoc, Rat.num_div_den, mul_comm,
    mul_div_assoc, Rat.num_div_den, mul_comm]

theorem qAdd_eq (a b : ℚ) : qAdd a b = a + b := by
  have ha : ((a.den : ℚ)) ≠ 0 := by exact_mod_cast a.den_ne_zero
  have hb : ((b.den : ℚ)) ≠ 0 := by exact_mod_cast b.den_ne_zero
  rw [qAdd, Rat.mkRat_eq_div]
  push_cast
  conv_rhs => rw [← Rat.num_div_den a, ← Rat.num_div_den b]
  rw [div_add_div _ _ ha hb]
  congr 1
  ring

theorem ratFloor_eq (q : ℚ) : Rat.floor q = ⌊q⌋ := by
  rw [Rat.floor_def', Rat.floor_def]

theorem jsMinQ_eq (a b : ℚ) : jsMinQ a b = min a b := by
  rw [jsMinQ, min_def]

theorem jsMinZ_eq (a b : ℤ) : jsMinZ a b = min a b := by
  rw [jsMinZ, min_def]

theorem jsRound_eq (q : ℚ) : jsRound q = round q := by
  rw [jsRound, qAdd_eq, ratFloor_eq, round_eq]
  congr 1
  rw [Rat.mkRat_eq_div]
  norm_num

/-- C6: for scores in [0,1] the displayed percent is
`min(round(min(score*3, 1) * 100), 100)` with tier Low below 40, Medium in
[40,70), High at or above 70; concretely 0.10 ↦ (30, Low),
0.20 ↦ (60, Medium), 0.30 ↦ (90, High). -/
theorem claim6_thm :
    (∀ q : ℚ, 0 ≤ q → q ≤ 1 →
      (updateConfidence q).1 = min (round (min (q * 3) 1 * 100)) 100 ∧
      ((updateConfidence q).2 = ConfTier.low ↔ (updateConfidence q).1 < 40) ∧
      ((updateConfidence q).2 = ConfTier.medium ↔
        40 ≤ (updateConfidence q).1 ∧ (updateConfidence q).1 < 70) ∧
      ((updateConfidence q).2 = ConfTier.high ↔ 70 ≤ (updateConfidence q).1)) ∧
    updateConfidence (mkRat 1 10) = (30, ConfTier.low) ∧
    updateConfidence (mkRat 1 5) = (60, ConfTier.medium) ∧
    updateConfidence (mkRat 3 10) = (90, ConfTier.high) := by
  refine ⟨?_, by decide, by decide, by decide⟩
  intro q h0 h1
  simp only [updateConfidence]
  have hfst : updateConfidencePercent q = min (round (min (q * 3) 1 * 100)) 100 := by
    rw [updateConfidencePercent, jsMinZ_eq, jsRound_eq, qMul_eq, jsMinQ_eq,
      qMul_eq]
  refine ⟨hfst, ?_⟩
  generalize updateConfidencePercent q = p
  split_ifs with ha hb
  · exact ⟨iff_of_true rfl ha, iff_of_false (by decide) (by omega),
      iff_of_false (by decide) (by omega)⟩
  · exact ⟨iff_of_false (by decide) (by omega), iff_of_true rfl (by omega),
      iff_of_false (by decide) (by omega)⟩
  · exact ⟨iff_of_false (by decide) (by omega), iff_of_false (by decide) (by omega),
      iff_of_true rfl (by omega)⟩

/-- Witness for C6 at score 0.10. -/
theorem claim6_witness :
    (updateConfidence (mkRat 1 10)).1 =
      min (round (min ((mkRat 1 10) * 3) 1 * 100)) 100 ∧
    ((updateConfidence (mkRat 1 10)).2 = ConfTier.low ↔
      (updateConfidence (mkRat 1 10)).1 < 40) ∧
    ((updateConfidence (mkRat 1 10)).2 = ConfTier.medium ↔
      40 ≤ (updateConfidence (mkRat 1 10)).1 ∧
        (updateConfidence (mkRat 1 10)).1 < 70) ∧
    ((updateConfidence (mkRat 1 10)).2 = ConfTier.high ↔
      70 ≤ (updateConfidence (mkRat 1 10)).1) :=
  claim6_thm.1 (mkRat 1 10) (by decide) (by decide)

/-! ### Lemmas about `validateAndScoreDetection` -/

/-- C7: the region scorer returns `null` exactly when the region size
fraction of the frame is below 0.02 or above 0.85, regardless of the raw
score, and returns a numeric adjusted score otherwise. -/
theorem claim7_thm (fw fh x y w h s : ℝ) (hfw : 0 < fw) (hfh : 0 < fh) :
    (validateAndScoreDetection fw fh x y w h s = none ↔
      w * h / (fw * fh) < 0.02 ∨ w * h / (fw * fh) > 0.85) ∧
    (¬(w * h / (fw * fh) < 0.02 ∨ w * h / (fw * fh) > 0.85) →
      ∃ v, validateAndScoreDetection fw fh x y w h s = some v) := by
  constructor
  · by_cases hc : w * h / (fw * fh) < 0.02 ∨ w * h / (fw * fh) > 0.85
    · simp [validateAndScoreDetection, hc]
    · simp [validateAndScoreDetection, hc]
  · intro hc
    simp [validateAndScoreDetection, hc]

/-- Witness for C7: a 1% region of a 10×10 frame is rejected; a 30%
region is accepted. -/
theorem claim7_witness :
    validateAndScoreDetection 10 10 0 0 1 1 (1/2) = none ∧
    (∃ v, validateAndScoreDetection 10 10 2 (5/2) 6 5 (1/2) = some v) :=
  ⟨(claim7_thm 10 10 0 0 1 1 (1/2) (by norm_num) (by norm_num)).1.mpr
      (by norm_num),
   (claim7_thm 10 10 2 (5/2) 6 5 (1/2) (by norm_num) (by norm_num)).2
      (by norm_num)⟩

theorem validateCentered_eq (fw fh w h s : ℝ) (hfw : 0 < fw) (hfh : 0 < fh)
    (hr : w * h / (fw * fh) = 0.3) :
    validateAndScoreDetection fw fh (fw / 2 - w / 2) (fh / 2 - h / 2) w h s =
      some (min (s * 1.3) 1) := by
  simp only [validateAndScoreDetection]
  rw [hr, if_neg (by norm_num)]
  rw [show (fw / 2 - w / 2 + w / 2 - fw / 2) / (fw / 2) = 0 from by
    rw [show fw / 2 - w / 2 + w / 2 - fw / 2 = 0 from by ring, zero_div]]
  rw [show (fh / 2 - h / 2 + h / 2 - fh / 2) / (fh / 2) = 0 from by
    rw [show fh / 2 - h / 2 + h / 2 - fh / 2 = 0 from by ring, zero_div]]
  rw [show (0 : ℝ) * 0 + 0 * 0 = 0 from by norm_num, Real.sqrt_zero, zero_div,
    if_pos (by norm_num : (0.1 : ℝ) ≤ 0.3 ∧ (0.3 : ℝ) ≤ 0.5)]
  norm_num

theorem validateCorner_eq (fw fh w h s cx cy : ℝ) (hfw : 0 < fw)
    (hfh : 0 < fh) (hr : w * h / (fw * fh) = 0.3)
    (hcx : cx = 0 ∨ cx = fw) (hcy : cy = 0 ∨ cy = fh) :
    validateAndScoreDetection fw fh (cx - w / 2) (cy - h / 2) w h s =
      some (min (s * 1.1) 1) := by
  have hnw : fw / 2 ≠ 0 := by positivity
  have hnh : fh / 2 ≠ 0 := by positivity
  have hdx : (cx - w / 2 + w / 2 - fw / 2) / (fw / 2) *
      ((cx - w / 2 + w / 2 - fw / 2) / (fw / 2)) = 1 := by
    rcases hcx with rfl | h2
    · rw [show (0 : ℝ) - w / 2 + w / 2 - fw / 2 = -(fw / 2) from by ring,
        neg_div, div_self hnw]
      norm_num
    · rw [h2, show fw - w / 2 + w / 2 - fw / 2 = fw / 2 from by ring,
        div_self hnw]
      norm_num
  have hdy : (cy - h / 2 + h / 2 - fh / 2) / (fh / 2) *
      ((cy - h / 2 + h / 2 - fh / 2) / (fh / 2)) = 1 := by
    rcases hcy with rfl | h2
    · rw [show (0 : ℝ) - h / 2 + h / 2 - fh / 2 = -(fh / 2) from by ring,
        neg_div, div_self hnh]
      norm_num
    · rw [h2, show fh - h / 2 + h / 2 - fh / 2 = fh / 2 from by ring,
        div_self hnh]
      norm_num
  simp only [validateAndScoreDetection]
  rw [hr, if_neg (by norm_num), hdx, hdy,
    show (1 : ℝ) + 1 = 2 from by norm_num,
    div_self (by positivity : Real.sqrt 2 ≠ 0),
    if_pos (by norm_num : (0.1 : ℝ) ≤ 0.3 ∧ (0.3 : ℝ) ≤ 0.5)]
  norm_num

/-- C8: with rawScore 0.5 and size fraction 0.3 fixed, a region centered
on the frame gets adjusted score 0.65 while the same-sized region whose
center sits at any frame corner gets 0.55 — centering strictly increases
the adjusted score. -/
theorem claim8_thm (fw fh w h cx cy : ℝ) (hfw : 0 < fw) (hfh : 0 < fh)
    (hr : w * h / (fw * fh) = 0.3) (hcx : cx = 0 ∨ cx = fw)
    (hcy : cy = 0 ∨ cy = fh) :
    validateAndScoreDetection fw fh (fw / 2 - w / 2) (fh / 2 - h / 2) w h 0.5 =
      some 0.65 ∧
    validateAndScoreDetection fw fh (cx - w / 2) (cy - h / 2) w h 0.5 =
      some 0.55 ∧
    (0.55 : ℝ) < 0.65 := by
  refine ⟨?_, ?_, by norm_num⟩
  · rw [validateCentered_eq fw fh w h 0.5 hfw hfh hr]
    norm_num [min_def]
  · rw [validateCorner_eq fw fh w h 0.5 cx cy hfw hfh hr hcx hcy]
    norm_num [min_def]

/-- Witness for C8: frame 10×10, region 6×5 (size fraction 0.3), corner
(0,0). -/
theorem claim8_witness :
    validateAndScoreDetection 10 10 (10 / 2 - 6 / 2) (10 / 2 - 5 / 2) 6 5 0.5 =
      some 0.65 ∧
    validateAndScoreDetection 10 10 (0 - 6 / 2) (0 - 5 / 2) 6 5 0.5 =
      some 0.55 ∧
    (0.55 : ℝ) < 0.65 :=
  claim8_thm 10 10 6 5 0 0 (by norm_num) (by norm_num) (by norm_num)
    (Or.inl rfl) (Or.inl rfl)

/-! ### Lemmas about the per-frame loop body -/

theorem findAccepted_cons_skip (p : Prediction) (rest : List Prediction)
    (h : accept p = false) : findAccepted (p :: rest) = findAccepted rest := by
  unfold accept at h
  cases hm : mapToRecycleBucket (some p.className) with
  | none => simp only [findAccepted, hm]
  | some r =>
    simp only [hm, Option.isSome_some, Bool.true_and,
      decide_eq_false_iff_not] at h
    simp only [findAccepted, hm]
    rw [if_neg h]

theorem findAccepted_cons_hit (p : Prediction) (rest : List Prediction)
    (r : MatchResult) (hm : mapToRecycleBucket (some p.className) = some r)
    (hp : mkRat 1 20 < p.probability) :
    findAccepted (p :: rest) = some (p, r) := by
  simp only [findAccepted, hm]
  rw [if_pos hp]

theorem findAccepted_first (pre : List Prediction) (p : Prediction)
    (suf : List Prediction) (hpre : ∀ q ∈ pre, accept q = false)
    (hp : accept p = true) :
    ∃ r, mapToRecycleBucket (some p.className) = some r ∧
      findAccepted (pre ++ p :: suf) = some (p, r) := by
  have hp2 := hp
  unfold accept at hp2
  simp only [Bool.and_eq_true, decide_eq_true_eq,
    Option.isSome_iff_exists] at hp2
  obtain ⟨⟨r, hr⟩, hprob⟩ := hp2
  refine ⟨r, hr, ?_⟩
  induction pre with
  | nil => exact findAccepted_cons_hit p suf r hr hprob
  | cons q pre ih =>
    rw [List.cons_append, findAccepted_cons_skip q _ (hpre q (by simp))]
    exact ih fun q' hq' => hpre q' (by simp [hq'])

theorem findAccepted_none (l : List Prediction)
    (h : ∀ q ∈ l, accept q = false) : findAccepted l = none := by
  induction l with
  | nil => rfl
  | cons q rest ih =>
    rw [findAccepted_cons_skip q rest (h q (by simp))]
    exact ih fun q' hq' => h q' (by simp [hq'])

/-- C1 (amended): when some prediction among the top 3 matches the
lexicon with probability above the 0.05 floor, the loop body processes
exactly the first such prediction and stops scanning: it appends the
matched displayName to the history, resets the no-detection counter,
derives the displayed confidence from the raw probability directly via
the confidence presenter (`validateAndScoreDetection` is not invoked),
and picks tip "lowConfidence" when the raw probability is < 0.15, else
"success". -/
theorem claim1_thm (st : FrameState) (preds : List Prediction)
    (pre : List Prediction) (p : Prediction) (suf : List Prediction)
    (htake : preds.take 3 = pre ++ p :: suf)
    (hpre : ∀ q ∈ pre, accept q = false) (hp : accept p = true) :
    ∃ r, mapToRecycleBucket (some p.className) = some r ∧
      loopStep st preds = applyMatch st p r ∧
      (loopStep st preds).detectionHistory =
        pushEvict st.detectionHistory r.displayName ∧
      (loopStep st preds).noDetectionFrames = 0 ∧
      (loopStep st preds).confidencePercent =
        (updateConfidence p.probability).1 ∧
      (loopStep st preds).tip = (if p.probability < mkRat 3 20
        then TipDisp.keyed TipKey.lowConfidence none
        else TipDisp.keyed TipKey.success (some r.displayName)) := by
  obtain ⟨r, hr, hfa⟩ := findAccepted_first pre p suf hpre hp
  rw [← htake] at hfa
  have hne : preds ≠ [] := by
    intro h0
    rw [h0] at htake
    cases pre <;> simp_all
  obtain ⟨top, rest, rfl⟩ : ∃ top rest, preds = top :: rest := by
    cases preds with
    | nil => exact absurd rfl hne
    | cons a b => exact ⟨a, b, rfl⟩
  have hstep : loopStep st (top :: rest) = applyMatch st p r := by
    simp only [loopStep, hfa]
  refine ⟨r, hr, hstep, ?_, ?_, ?_, ?_⟩ <;> rw [hstep] <;>
    simp only [applyMatch]

/-- Witness for C1: predictions [car 0.9, onion 0.5] — "car" is not in
the lexicon, so the second prediction is the first accepted one. -/
theorem claim1_witness :
    mapToRecycleBucket (some "onion") = some ⟨"Compost", "Onion"⟩ ∧
    (loopStep initState
      [⟨"car", mkRat 9 10⟩, ⟨"onion", mkRat 1 2⟩]).detectionHistory =
      ["Onion"] ∧
    (loopStep initState
      [⟨"car", mkRat 9 10⟩, ⟨"onion", mkRat 1 2⟩]).noDetectionFrames = 0 ∧
    (loopStep initState
      [⟨"car", mkRat 9 10⟩, ⟨"onion", mkRat 1 2⟩]).confidencePercent =
      (updateConfidence (mkRat 1 2)).1 ∧
    (loopStep initState [⟨"car", mkRat 9 10⟩, ⟨"onion", mkRat 1 2⟩]).tip =
      TipDisp.keyed TipKey.success (some "Onion") := by
  obtain ⟨r, hr, hstep, hh, hn, hc, ht⟩ :=
    claim1_thm initState [⟨"car", mkRat 9 10⟩, ⟨"onion", mkRat 1 2⟩]
      [⟨"car", mkRat 9 10⟩] ⟨"onion", mkRat 1 2⟩ [] rfl (by decide) (by decide)
  have hreq : r = ⟨"Compost", "Onion"⟩ := by
    have h2 : mapToRecycleBucket (some "onion") =
        some (⟨"Compost", "Onion"⟩ : MatchResult) := by decide
    rw [hr] at h2
    exact Option.some.inj h2
  subst hreq
  refine ⟨by decide, ?_, hn, ?_, ?_⟩
  · rw [hh]
    decide
  · rw [hc]
  · rw [ht]
    decide

/-- Counterexample for C1 as stated: at raw predictions
[water bottle 0.2] the code displays confidence 60 (presenter applied to
the raw probability), while the claimed pipeline — RegionScorer on the
fixed centered default region (size fraction 0.3) followed by the
presenter — would display 78. -/
theorem claim1_counterexample :
    (loopStep initState [⟨"water bottle", mkRat 1 5⟩]).confidencePercent =
      60 ∧
    validateAndScoreDetection 10 10 (10 / 2 - 6 / 2) (10 / 2 - 5 / 2) 6 5
      (1/5) = some (13/50) ∧
    (updateConfidence (mkRat 13 50)).1 = 78 ∧
    (60 : ℤ) ≠ 78 := by
  refine ⟨by decide, ?_, by decide, by decide⟩
  rw [validateCentered_eq 10 10 6 5 (1/5) (by norm_num) (by norm_num)
    (by norm_num)]
  norm_num [min_def]

/-- C5 (amended): when the prediction list is non-empty and no prediction
among the top 3 is accepted (no lexicon match, or probability at or below
the 0.05 floor), the loop body leaves the history untouched, increments
`noDetectionFrames`, clears the confirmed state and the category HUD
(category = null), shows confidence 0, and shows the diagnostic
`Seeing: <top label>` text in place of a keyed tip. -/
theorem claim5_thm (st : FrameState) (top : Prediction)
    (rest : List Prediction)
    (h : ∀ q ∈ (top :: rest).take 3, accept q = false) :
    (loopStep st (top :: rest)).detectionHistory = st.detectionHistory ∧
    (loopStep st (top :: rest)).noDetectionFrames =
      st.noDetectionFrames + 1 ∧
    (loopStep st (top :: rest)).targetDetected = false ∧
    (loopStep st (top :: rest)).hud = none ∧
    (loopStep st (top :: rest)).tip = TipDisp.seeing top.className ∧
    (loopStep st (top :: rest)).confidencePercent =
      (updateConfidence 0).1 := by
  have hfa : findAccepted ((top :: rest).take 3) = none :=
    findAccepted_none _ h
  have hstep : loopStep st (top :: rest) = { st with
      noDetectionFrames := st.noDetectionFrames + 1
      targetDetected := false
      hud := none
      tip := TipDisp.seeing top.className
      confidencePercent := (updateConfidence 0).1 } := by
    simp only [loopStep, hfa]
  rw [hstep]
  exact ⟨rfl, rfl, rfl, rfl, rfl, rfl⟩

/-- Witness for C5 at the end-to-end input [car 0.9] from the spec. -/
theorem claim5_witness :
    (loopStep initState [⟨"car", mkRat 9 10⟩]).detectionHistory = [] ∧
    (loopStep initState [⟨"car", mkRat 9 10⟩]).noDetectionFrames = 1 ∧
    (loopStep initState [⟨"car", mkRat 9 10⟩]).targetDetected = false ∧
    (loopStep initState [⟨"car", mkRat 9 10⟩]).hud = none ∧
    (loopStep initState [⟨"car", mkRat 9 10⟩]).tip = TipDisp.seeing "car" ∧
    (loopStep initState [⟨"car", mkRat 9 10⟩]).confidencePercent =
      (updateConfidence 0).1 := by
  obtain ⟨h1, h2, h3, h4, h5, h6⟩ :=
    claim5_thm initState ⟨"car", mkRat 9 10⟩ [] (by decide)
  exact ⟨h1, h2, h3, h4, h5, h6⟩

/-- Counterexample for C5 as stated: at [car 0.9] the tips banner
holds the raw diagnostic `Seeing: car`, not a keyed tip — in particular
no "noObject" tip is emitted. -/
theorem claim5_counterexample :
    (loopStep initState [⟨"car", mkRat 9 10⟩]).tip = TipDisp.seeing "car" ∧
    tipKeyOf (loopStep initState [⟨"car", mkRat 9 10⟩]).tip ≠
      some TipKey.noObject := by
  exact ⟨by decide, by decide⟩
